import Mathlib

/-!
Shallow embedding of the `powersystems` Python package
(`src/foucault-power-systems/python-core/powersystems/core.py` and
`analyzer.py`).

Modelling conventions:
* Python `float` is modelled as `ℚ` (the spec and the analyzer only use
  exact decimal constants and ratios of small integers).
* Python `int` is modelled as `Int`, counts as `Nat`.
* Python strings are modelled as Lean `String` / `List Char`; the
  substring test `needle in hay` is `subtext`, and `str.lower()` is a
  per-character ASCII lowercasing, which agrees with Python on the ASCII
  inputs the package manipulates.
* `Privilege.is_measurable` in the source tests keywords against
  `str(self.limitations).lower()` — the Python string representation of
  the whole list.  `pyStrOfList` reproduces CPython's `str`/`repr` of a
  list of strings (quote selection and character escaping) for ASCII
  strings.
* The `ReachEstimation.__post_init__` validation (the only error path of
  the core) is modelled by `ReachEstimation.make`, returning `Except`.
-/

namespace PowerSystems

/-- Scope of privilege reach (`PrivilegeScope` enum in core.py). -/
inductive PrivilegeScope where
  | GLOBAL
  | LIMITED
  | RESTRICTED
  | NONE
deriving DecidableEq

/-- Direction of power flow (`PowerDirection` enum in core.py). -/
inductive PowerDirection where
  | TOP_DOWN
  | BOTTOM_UP
  | LATERAL
  | CIRCULAR
  | CAPILLARY
deriving DecidableEq

/-- `Privilege` frozen dataclass from core.py. -/
structure Privilege where
  name : String
  scope : PrivilegeScope
  description : String
  limitations : List String := []
  produces : List String := []
deriving DecidableEq

/-- Hex digit used by CPython's `\xNN` escapes (lowercase). -/
def hexDigit (n : Nat) : Char :=
  if n < 10 then Char.ofNat (48 + n) else Char.ofNat (87 + n)

/-- One character of CPython `repr` of a string, given the chosen quote
character `q`: backslash and the quote are backslash-escaped, tab,
newline and carriage return become `\t`, `\n`, `\r`, other control
characters (and DEL) become `\xNN`; everything else is kept. -/
def pyEscape (q : Char) (c : Char) : List Char :=
  if c = '\\' then ['\\', '\\']
  else if c = q then ['\\', q]
  else if c = '\t' then ['\\', 't']
  else if c = '\n' then ['\\', 'n']
  else if c = '\r' then ['\\', 'r']
  else if c.toNat < 32 || c.toNat == 127 then
    ['\\', 'x', hexDigit (c.toNat / 16 % 16), hexDigit (c.toNat % 16)]
  else [c]

/-- CPython `repr` of a string: single quotes, unless the string contains
a single quote and no double quote. -/
def pyReprChars (s : List Char) : List Char :=
  let q : Char := if s.contains '\'' && !(s.contains '"') then '"' else '\''
  q :: s.flatMap (pyEscape q) ++ [q]

/-- `", ".join` of pieces, as used by CPython when printing a list. -/
def joinSep : List (List Char) → List Char
  | [] => []
  | [x] => x
  | x :: y :: t => x ++ [',', ' '] ++ joinSep (y :: t)

/-- CPython `str` of a list of strings: `repr` of each element, joined by
`", "`, in square brackets. -/
def pyStrOfList (xs : List String) : List Char :=
  '[' :: joinSep (xs.map fun s => pyReprChars s.toList) ++ [']']

/-- ASCII lowercasing of a character list (Python `str.lower()` on the
ASCII fragment). -/
def lowerChars (l : List Char) : List Char :=
  l.map Char.toLower

/-- `needle.isPrefixOf hay` spelt out (used by `subtext`). -/
def leadsWith : List Char → List Char → Bool
  | [], _ => true
  | _ :: _, [] => false
  | a :: as, b :: bs => a == b && leadsWith as bs

/-- The Python substring test `needle in hay`. -/
def subtext (needle hay : List Char) : Bool :=
  leadsWith needle hay ||
    match hay with
    | [] => false
    | _ :: t => subtext needle t

/-- The fixed keyword set of `Privilege.is_measurable`. -/
def measurabilityKeywords : List (List Char) :=
  ["limit", "max", "count", "rate", "number", "size"].map String.toList

/-- `Privilege.is_measurable` from core.py:
`len(self.limitations) > 0 and any(keyword in str(self.limitations).lower() for keyword in [...])`. -/
def Privilege.is_measurable (p : Privilege) : Bool :=
  decide (p.limitations.length > 0) &&
    measurabilityKeywords.any fun keyword =>
      subtext keyword (lowerChars (pyStrOfList p.limitations))

/-- `PowerRelation` frozen dataclass from core.py. -/
structure PowerRelation where
  from_position : String
  to_position : String
  privilege : Privilege
  direction : PowerDirection
  resistance_points : List String := []

/-- `PowerRelation.is_reversible` from core.py. -/
def PowerRelation.is_reversible (r : PowerRelation) : Bool :=
  decide (r.resistance_points.length > 0)

/-- `DisciplinaryMechanism` frozen dataclass from core.py. -/
structure DisciplinaryMechanism where
  name : String
  mechanism_type : String
  observes : List String
  normalizes_to : Option String
  produces_knowledge : Bool
  visibility_pattern : String

/-- `ReachEstimation` frozen dataclass from core.py (fields only; the
`__post_init__` validation is `ReachEstimation.make`). -/
structure ReachEstimation where
  is_measurable : Bool
  minimum_impact : Int
  maximum_impact : Int
  confidence : ℚ
  reasoning : String
  measurement_type : String

/-- `ReachEstimation.__post_init__` from core.py: constructing a
`ReachEstimation` raises `ValueError` unless `0.0 <= confidence <= 1.0`
and `minimum_impact <= maximum_impact`. -/
def ReachEstimation.make (m : Bool) (mini maxi : Int) (c : ℚ)
    (reason mtype : String) : Except String ReachEstimation :=
  if ¬(0 ≤ c ∧ c ≤ 1) then
    Except.error "Confidence must be between 0.0 and 1.0"
  else if mini > maxi then
    Except.error "Minimum impact cannot exceed maximum impact"
  else
    Except.ok ⟨m, mini, maxi, c, reason, mtype⟩

/-- The invariant `__post_init__` enforces on every constructed
`ReachEstimation`. -/
def ReachEstimation.Valid (r : ReachEstimation) : Prop :=
  0 ≤ r.confidence ∧ r.confidence ≤ 1 ∧ r.minimum_impact ≤ r.maximum_impact

instance (r : ReachEstimation) : Decidable r.Valid := by
  unfold ReachEstimation.Valid; infer_instance

/-- Whether an `Except`-returning construction failed. -/
def isError {ε α : Type} : Except ε α → Bool
  | Except.error _ => true
  | Except.ok _ => false

/-- `PowerSystem` abstract base class from core.py: a record of its
abstract members (data accessors plus the reach estimator). -/
structure PowerSystem where
  name : String
  description : String
  get_privileges : List Privilege
  get_power_relations : List PowerRelation
  get_disciplinary_mechanisms : List DisciplinaryMechanism
  estimate_reach : Privilege → ReachEstimation

/-- `PowerSystem.total_privileges` from core.py. -/
def PowerSystem.total_privileges (s : PowerSystem) : Nat :=
  s.get_privileges.length

/-- `PowerSystem.measurable_privileges` from core.py. -/
def PowerSystem.measurable_privileges (s : PowerSystem) : Nat :=
  s.get_privileges.countP fun p => p.is_measurable

/-- `PowerSystem.power_density` from core.py: relations per distinct
position, with guards returning 0.0. -/
def PowerSystem.power_density (s : PowerSystem) : ℚ :=
  let relations := s.get_power_relations
  if relations.isEmpty then 0
  else
    let positions :=
      (relations.flatMap fun rel => [rel.from_position, rel.to_position]).dedup
    if positions.length = 0 then 0
    else (relations.length : ℚ) / (positions.length : ℚ)

/-- `PowerSystem.surveillance_intensity` from core.py:
mechanisms whose type contains "surveillance", over `max(len, 1)`. -/
def PowerSystem.surveillance_intensity (s : PowerSystem) : ℚ :=
  let mechanisms := s.get_disciplinary_mechanisms
  let surveillance_count :=
    mechanisms.countP fun m =>
      subtext "surveillance".toList (lowerChars m.mechanism_type.toList)
  (surveillance_count : ℚ) / (max mechanisms.length 1 : ℚ)

/-- `PowerSystem.produces_knowledge` from core.py. -/
def PowerSystem.produces_knowledge (s : PowerSystem) : Bool :=
  s.get_disciplinary_mechanisms.any fun m => m.produces_knowledge

/-- The `power_characteristics` dict assembled by
`PowerSystemAnalyzer.analyze`. -/
structure PowerCharacteristics where
  power_density : ℚ
  surveillance_intensity : ℚ
  produces_knowledge : Bool
  disciplinary_count : Nat
  total_relations : Nat

/-- `SystemAnalysis` dataclass from analyzer.py. -/
structure SystemAnalysis where
  system_name : String
  is_measurable : Bool
  confidence : ℚ
  minimum_reach : Int
  maximum_reach : Int
  measurable_privileges : Nat
  total_privileges : Nat
  verdict : String
  reasoning : String
  power_characteristics : PowerCharacteristics

/-- `SystemAnalysis.measurability_ratio` from analyzer.py. -/
def SystemAnalysis.measurability_ratio (a : SystemAnalysis) : ℚ :=
  if a.total_privileges = 0 then 0
  else (a.measurable_privileges : ℚ) / (a.total_privileges : ℚ)

/-- `PowerSystemAnalyzer._generate_reasoning` from analyzer.py (the
`ratio` local of the source is computed but never used, and is omitted). -/
def generate_reasoning (measurable total : Nat) (confidence : ℚ) : String :=
  if confidence ≥ 0.85 then
    "This system demonstrates HIGH MEASURABILITY. " ++
    toString measurable ++ "/" ++ toString total ++
    " privileges have concrete limitations. " ++
    "Power effects are quantifiable and observable. " ++
    "Following Foucault: we can analyze this power through its measurable effects."
  else if confidence ≥ 0.5 then
    "This system shows MODERATE MEASURABILITY. " ++
    toString measurable ++ "/" ++ toString total ++
    " privileges have some concrete limits, " ++
    "but others remain more abstract. " ++
    "Power is partially quantifiable but requires estimation. " ++
    "Foucault: Power is more diffuse here, but still analyzable."
  else
    "This system exhibits LOW MEASURABILITY. " ++
    "Only " ++ toString measurable ++ "/" ++ toString total ++
    " privileges have concrete limitations. " ++
    "Power appears more as abstract influence than measurable capacity. " ++
    "Foucault: This power operates through discourse and subjectification, " ++
    "harder to quantify but no less real."

/-- `PowerSystemAnalyzer.analyze` from analyzer.py. -/
def analyze (system : PowerSystem) : SystemAnalysis :=
  let privileges := system.get_privileges
  let total_privs := privileges.length
  let measurable_privs := privileges.countP fun p => p.is_measurable
  let confidence : ℚ :=
    if total_privs = 0 then 0
    else
      let base_confidence : ℚ := (measurable_privs : ℚ) / (total_privs : ℚ)
      let reach_estimations := privileges.map system.estimate_reach
      let avg_reach_confidence : ℚ :=
        ((reach_estimations.map fun r => r.confidence).sum) /
          (max reach_estimations.length 1 : ℚ)
      (base_confidence + avg_reach_confidence) / 2
  let reach_estimations := privileges.map system.estimate_reach
  let min_reach : Int := (reach_estimations.map fun r => r.minimum_impact).sum
  let max_reach : Int := (reach_estimations.map fun r => r.maximum_impact).sum
  let is_measurable : Bool := decide (confidence ≥ 0.7)
  let verdict : String :=
    if confidence ≥ 0.85 then "✓ MEASURABLE"
    else if confidence ≥ 0.5 then "~ ESTIMABLE"
    else "✗ SPECULATION"
  let reasoning := generate_reasoning measurable_privs total_privs confidence
  let characteristics : PowerCharacteristics :=
    { power_density := system.power_density
      surveillance_intensity := system.surveillance_intensity
      produces_knowledge := system.produces_knowledge
      disciplinary_count := system.get_disciplinary_mechanisms.length
      total_relations := system.get_power_relations.length }
  { system_name := system.name
    is_measurable := is_measurable
    confidence := confidence
    minimum_reach := min_reach
    maximum_reach := max_reach
    measurable_privileges := measurable_privs
    total_privileges := total_privs
    verdict := verdict
    reasoning := reasoning
    power_characteristics := characteristics }

/-- Python round-half-to-even of a rational to an integer, as used by
`format` with 0 decimal places. -/
def halfEven (q : ℚ) : Int :=
  let f : Int := Rat.floor q
  let r : ℚ := q - (f : ℚ)
  if r < 1/2 then f
  else if 1/2 < r then f + 1
  else if f % 2 = 0 then f else f + 1

/-- Python `format(x, ".0%")` in the rational model. -/
def pyPercent0 (q : ℚ) : String :=
  toString (halfEven (q * 100)) ++ "%"

/-- Python `format(x, ".2f")` in the rational model (nonnegative case,
the only one the analyzer produces). -/
def pyFixed2 (q : ℚ) : String :=
  let n : Int := halfEven (q * 100)
  let frac : Nat := (n % 100).natAbs
  toString (n / 100) ++ "." ++ (if frac < 10 then "0" else "") ++ toString frac

/-- Python `str` of a boolean. -/
def pyBool (b : Bool) : String :=
  if b then "True" else "False"

/-- The `comparison` f-string built by `PowerSystemAnalyzer.compare`
before the interpretation lines are appended. -/
def compareBody (system1 system2 : PowerSystem) : String :=
  let analysis1 := analyze system1
  let analysis2 := analyze system2
  "\nPOWER SYSTEM COMPARISON\n\nSystem 1: " ++ analysis1.system_name ++
  "\n" ++ analysis1.verdict ++ " | Confidence: " ++ pyPercent0 analysis1.confidence ++
  "\n\nSystem 2: " ++ analysis2.system_name ++
  "\n" ++ analysis2.verdict ++ " | Confidence: " ++ pyPercent0 analysis2.confidence ++
  "\n\nMEASURABILITY:\n- " ++ system1.name ++ ": " ++
  pyPercent0 analysis1.measurability_ratio ++ " measurable\n- " ++
  system2.name ++ ": " ++ pyPercent0 analysis2.measurability_ratio ++
  " measurable\n\nPOWER DENSITY (relations per position):\n- " ++
  system1.name ++ ": " ++ pyFixed2 analysis1.power_characteristics.power_density ++
  "\n- " ++ system2.name ++ ": " ++
  pyFixed2 analysis2.power_characteristics.power_density ++
  "\n\nSURVEILLANCE:\n- " ++ system1.name ++ ": " ++
  pyPercent0 analysis1.power_characteristics.surveillance_intensity ++
  "\n- " ++ system2.name ++ ": " ++
  pyPercent0 analysis2.power_characteristics.surveillance_intensity ++
  "\n\nKNOWLEDGE PRODUCTION:\n- " ++ system1.name ++ ": " ++
  pyBool analysis1.power_characteristics.produces_knowledge ++
  "\n- " ++ system2.name ++ ": " ++
  pyBool analysis2.power_characteristics.produces_knowledge ++ "\n"

/-- `PowerSystemAnalyzer.compare` from analyzer.py: the comparison body
followed by the interpretation lines chosen by comparing the two
confidences. -/
def compare (system1 system2 : PowerSystem) : String :=
  let analysis1 := analyze system1
  let analysis2 := analyze system2
  if analysis1.confidence > analysis2.confidence then
    compareBody system1 system2 ++
      ("\n" ++ system1.name ++ " is MORE MEASURABLE than " ++ system2.name ++
       ".\nFoucault: More measurable systems often have more explicit disciplinary mechanisms.")
  else if analysis2.confidence > analysis1.confidence then
    compareBody system1 system2 ++
      ("\n" ++ system2.name ++ " is MORE MEASURABLE than " ++ system1.name ++
       ".\nFoucault: More measurable systems often have more explicit disciplinary mechanisms.")
  else
    compareBody system1 system2 ++
      ("\nBoth systems show similar measurability." ++
       "\nFoucault: Different power regimes can have equivalent measurability.")

/-! ### Concrete example systems used as witnesses -/

/-- A privilege whose limitations mention an explicit keyword. -/
def privMax : Privilege :=
  { name := "posting", scope := PrivilegeScope.GLOBAL, description := "",
    limitations := ["max 100 posts per day"], produces := [] }

/-- A privilege with a limitation that matches no keyword. -/
def privLoose : Privilege :=
  { name := "viewing", scope := PrivilegeScope.LIMITED, description := "",
    limitations := ["no constraints"], produces := [] }

/-- A privilege with no limitations at all. -/
def privFree : Privilege :=
  { name := "browsing", scope := PrivilegeScope.NONE, description := "",
    limitations := [], produces := [] }

/-- A well-formed reach estimation with the given confidence. -/
def estOf (c : ℚ) : ReachEstimation :=
  { is_measurable := true, minimum_impact := 0, maximum_impact := 10,
    confidence := c, reasoning := "", measurement_type := "" }

/-- A system whose analysis confidence is exactly 0.85:
one measurable privilege, reach confidence 0.7. -/
def sysHi : PowerSystem :=
  { name := "hi", description := "",
    get_privileges := [privMax],
    get_power_relations := [],
    get_disciplinary_mechanisms := [],
    estimate_reach := fun _ => estOf 0.7 }

/-- A system whose analysis confidence is exactly 0.5:
one unmeasurable privilege, reach confidence 1. -/
def sysMid : PowerSystem :=
  { name := "mid", description := "",
    get_privileges := [privLoose],
    get_power_relations := [],
    get_disciplinary_mechanisms := [],
    estimate_reach := fun _ => estOf 1 }

/-- A system with no privileges at all (confidence 0). -/
def sysEmpty : PowerSystem :=
  { name := "empty", description := "",
    get_privileges := [],
    get_power_relations := [],
    get_disciplinary_mechanisms := [],
    estimate_reach := fun _ => estOf 0 }

/-- A system whose analysis confidence is exactly 0.75:
one of two privileges measurable, reach confidence 1. -/
def sysConf075 : PowerSystem :=
  { name := "threequarters", description := "",
    get_privileges := [privMax, privLoose],
    get_power_relations := [],
    get_disciplinary_mechanisms := [],
    estimate_reach := fun _ => estOf 1 }

/-- A power relation from position A to position B. -/
def relAB : PowerRelation :=
  { from_position := "A", to_position := "B", privilege := privMax,
    direction := PowerDirection.TOP_DOWN, resistance_points := [] }

/-- A power relation from position B to position A. -/
def relBA : PowerRelation :=
  { from_position := "B", to_position := "A", privilege := privMax,
    direction := PowerDirection.BOTTOM_UP, resistance_points := [] }

/-- A system carrying exactly the relations A→B and B→A. -/
def sysRel : PowerSystem :=
  { name := "rel", description := "",
    get_privileges := [],
    get_power_relations := [relAB, relBA],
    get_disciplinary_mechanisms := [],
    estimate_reach := fun _ => estOf 0 }

/-- First scenario privilege: measurable ("max"). -/
def priv1 : Privilege :=
  { name := "s1", scope := PrivilegeScope.GLOBAL, description := "",
    limitations := ["max 100 posts per day"], produces := [] }

/-- Second scenario privilege: measurable ("rate"). -/
def priv2 : Privilege :=
  { name := "s2", scope := PrivilegeScope.GLOBAL, description := "",
    limitations := ["rate of 10 per hour"], produces := [] }

/-- Third scenario privilege: measurable ("count"). -/
def priv3 : Privilege :=
  { name := "s3", scope := PrivilegeScope.LIMITED, description := "",
    limitations := ["count capped at 3"], produces := [] }

/-- Fourth scenario privilege: not measurable. -/
def priv4 : Privilege :=
  { name := "s4", scope := PrivilegeScope.RESTRICTED, description := "",
    limitations := ["no constraints"], produces := [] }

/-- Fifth scenario privilege: not measurable (no limitations). -/
def priv5 : Privilege :=
  { name := "s5", scope := PrivilegeScope.NONE, description := "",
    limitations := [], produces := [] }

/-- The five-privilege scenario system of the spec: three measurable
privileges, reach confidences 0.9 for the measurable ones and 0.5 for
the others, i.e. [0.9, 0.9, 0.9, 0.5, 0.5] in privilege order. -/
def sys5 : PowerSystem :=
  { name := "scenario", description := "",
    get_privileges := [priv1, priv2, priv3, priv4, priv5],
    get_power_relations := [],
    get_disciplinary_mechanisms := [],
    estimate_reach := fun p => estOf (if p.is_measurable then 0.9 else 0.5) }

/-- A character CPython's `repr` keeps verbatim regardless of context:
printable ASCII that is not a backslash or a quote. -/
def asciiPlain (c : Char) : Prop :=
  32 ≤ c.toNat ∧ c.toNat ≤ 126 ∧ c ≠ '\\' ∧ c ≠ '\'' ∧ c ≠ '"'

instance (c : Char) : Decidable (asciiPlain c) := by
  unfold asciiPlain; infer_instance

/-- A lowercase ASCII letter; every measurability keyword consists of
such characters, and none of the punctuation `repr` inserts is one. -/
def kwChar (c : Char) : Prop :=
  97 ≤ c.toNat ∧ c.toNat ≤ 122

instance (c : Char) : Decidable (kwChar c) := by
  unfold kwChar; infer_instance

/-- A privilege whose only limitation matches per-element semantics
("limit" occurs inside "unlimited"). -/
def privRetention : Privilege :=
  { name := "retention", scope := PrivilegeScope.GLOBAL, description := "",
    limitations := ["Retention: unlimited duration"], produces := [] }

/-- The privilege refuting the per-element reading of
`is_measurable`: its only limitation is a carriage return followed by
"ate", so no element contains a keyword, but `str` of the list renders
the carriage return as a backslash-r escape, producing the text "rate". -/
def privEscape : Privilege :=
  { name := "escape", scope := PrivilegeScope.GLOBAL, description := "",
    limitations := ["\rate"], produces := [] }


/-! ### Unfolding lemmas for `analyze` -/

theorem analyze_confidence_def (s : PowerSystem) :
    (analyze s).confidence =
      if s.get_privileges.length = 0 then 0
      else
        (((s.get_privileges.countP fun p => p.is_measurable : Nat) : ℚ) /
            (s.get_privileges.length : ℚ) +
          ((s.get_privileges.map s.estimate_reach).map fun r => r.confidence).sum /
            (max (s.get_privileges.map s.estimate_reach).length 1 : ℚ)) / 2 := rfl

theorem analyze_verdict_def (s : PowerSystem) :
    (analyze s).verdict =
      if (analyze s).confidence ≥ 0.85 then "✓ MEASURABLE"
      else if (analyze s).confidence ≥ 0.5 then "~ ESTIMABLE"
      else "✗ SPECULATION" := rfl

theorem analyze_is_measurable_def (s : PowerSystem) :
    (analyze s).is_measurable = decide ((analyze s).confidence ≥ 0.7) := rfl

theorem analyze_minimum_reach_def (s : PowerSystem) :
    (analyze s).minimum_reach =
      ((s.get_privileges.map s.estimate_reach).map fun r => r.minimum_impact).sum := rfl

theorem analyze_maximum_reach_def (s : PowerSystem) :
    (analyze s).maximum_reach =
      ((s.get_privileges.map s.estimate_reach).map fun r => r.maximum_impact).sum := rfl

theorem sysHi_confidence : (analyze sysHi).confidence = 0.85 := by
  have h : (List.countP (fun p => p.is_measurable) [privMax]) = 1 := by rfl
  simp [analyze, sysHi]
  rw [h]
  norm_num [estOf]

theorem sysMid_confidence : (analyze sysMid).confidence = 0.5 := by
  have h : (List.countP (fun p => p.is_measurable) [privLoose]) = 0 := by rfl
  simp [analyze, sysMid]
  rw [h]
  norm_num [estOf]

theorem sysEmpty_confidence : (analyze sysEmpty).confidence = 0 := by
  simp [analyze, sysEmpty]

theorem sysConf075_confidence : (analyze sysConf075).confidence = 0.75 := by
  have h : (List.countP (fun p => p.is_measurable) [privMax, privLoose]) = 1 := by rfl
  simp [analyze, sysConf075]
  rw [h]
  norm_num [estOf]

/-! ### C1 -/

theorem analyze_confidence_eval (s : PowerSystem) :
    (analyze s).confidence =
      if s.get_privileges.length = 0 then 0
      else
        (((s.get_privileges.countP fun p => p.is_measurable : Nat) : ℚ) /
            (s.get_privileges.length : ℚ) +
          (s.get_privileges.map fun p => (s.estimate_reach p).confidence).sum /
            (s.get_privileges.length : ℚ)) / 2 := by
  rw [analyze_confidence_def]
  by_cases h : s.get_privileges.length = 0
  · simp [h]
  · rw [if_neg h, if_neg h, List.map_map, List.length_map,
      max_eq_left (by exact_mod_cast Nat.one_le_iff_ne_zero.mpr h : (1 : ℚ) ≤ _)]
    rfl

/-- C1: for every `PowerSystem`, `analyze` computes confidence as 0 when
there are no privileges, and otherwise as the average of
`base_confidence` (measurable count over total count) and
`avg_reach_confidence` (the arithmetic mean of the reach estimations'
confidences, taken over the privileges in order). -/
theorem analyze_confidence_formula (s : PowerSystem) :
    (analyze s).confidence =
      if s.get_privileges.length = 0 then 0
      else
        (((s.get_privileges.countP fun p => p.is_measurable : Nat) : ℚ) /
            (s.get_privileges.length : ℚ) +
          (s.get_privileges.map fun p => (s.estimate_reach p).confidence).sum /
            (s.get_privileges.length : ℚ)) / 2 :=
  analyze_confidence_eval s

/-! ### C2 -/

/-- C2: the verdict of `analyze` is determined by non-overlapping
confidence buckets: confidence ≥ 0.85 yields the MEASURABLE verdict,
0.5 ≤ confidence < 0.85 yields the ESTIMABLE verdict, and
confidence < 0.5 yields the SPECULATION verdict (so exactly 0.85 is
MEASURABLE and exactly 0.5 is ESTIMABLE). -/
theorem analyze_verdict_buckets (s : PowerSystem) :
    ((analyze s).confidence ≥ 0.85 → (analyze s).verdict = "✓ MEASURABLE")
    ∧ (0.5 ≤ (analyze s).confidence ∧ (analyze s).confidence < 0.85 →
        (analyze s).verdict = "~ ESTIMABLE")
    ∧ ((analyze s).confidence < 0.5 → (analyze s).verdict = "✗ SPECULATION") := by
  refine ⟨fun h => ?_, fun h => ?_, fun h => ?_⟩
  · rw [analyze_verdict_def, if_pos h]
  · rw [analyze_verdict_def, if_neg (not_le.mpr h.2), if_pos h.1]
  · rw [analyze_verdict_def, if_neg (not_le.mpr (h.trans_le (by norm_num))),
      if_neg (not_le.mpr h)]

/-- C2 witness: the three buckets realised at the boundary values 0.85,
0.5 and at confidence 0. -/
theorem analyze_verdict_buckets_witness :
    (analyze sysHi).verdict = "✓ MEASURABLE"
    ∧ (analyze sysMid).verdict = "~ ESTIMABLE"
    ∧ (analyze sysEmpty).verdict = "✗ SPECULATION" :=
  ⟨(analyze_verdict_buckets sysHi).1 (by rw [sysHi_confidence]),
   (analyze_verdict_buckets sysMid).2.1 (by rw [sysMid_confidence]; norm_num),
   (analyze_verdict_buckets sysEmpty).2.2 (by rw [sysEmpty_confidence]; norm_num)⟩

/-! ### C3 -/

/-- C3: the `is_measurable` flag of the analysis equals
(confidence ≥ 0.7), independently of the verdict buckets; in particular
a system whose confidence is 0.75 reports `is_measurable = true` while
its verdict is the ESTIMABLE one. -/
theorem analyze_is_measurable_flag (s : PowerSystem) :
    ((analyze s).is_measurable = decide ((analyze s).confidence ≥ 0.7))
    ∧ ((analyze s).confidence = 0.75 →
        (analyze s).is_measurable = true ∧ (analyze s).verdict = "~ ESTIMABLE") := by
  refine ⟨analyze_is_measurable_def s, fun h => ⟨?_, ?_⟩⟩
  · rw [analyze_is_measurable_def, h]
    simp only [decide_eq_true_eq]
    norm_num
  · rw [analyze_verdict_def, h, if_neg (by norm_num), if_pos (by norm_num)]

/-- C3 witness: a concrete system with confidence exactly 0.75 has the
flag set while its verdict is ESTIMABLE. -/
theorem analyze_is_measurable_flag_witness :
    (analyze sysConf075).is_measurable = true
    ∧ (analyze sysConf075).verdict = "~ ESTIMABLE" :=
  (analyze_is_measurable_flag sysConf075).2 sysConf075_confidence

/-! ### C5 -/

/-- C5: constructing a `ReachEstimation` fails exactly when the
confidence lies outside [0, 1] or the minimum impact exceeds the
maximum; in particular confidence 1.5 fails, minimum 10 with maximum 5
fails, and confidence 0.5 with minimum = maximum = 5 succeeds. -/
theorem reach_make_error_iff (m : Bool) (mini maxi : Int) (c : ℚ)
    (reason mtype : String) :
    (isError (ReachEstimation.make m mini maxi c reason mtype) = true ↔
      (c < 0 ∨ 1 < c ∨ maxi < mini))
    ∧ isError (ReachEstimation.make true 0 0 1.5 "" "") = true
    ∧ isError (ReachEstimation.make true 10 5 0.5 "" "") = true
    ∧ isError (ReachEstimation.make true 5 5 0.5 "" "") = false := by
  refine ⟨?_, ?_, ?_, ?_⟩
  · unfold ReachEstimation.make
    by_cases h1 : 0 ≤ c ∧ c ≤ 1
    · by_cases h2 : mini > maxi
      · rw [if_neg (not_not_intro h1), if_pos h2]
        exact iff_of_true rfl (Or.inr (Or.inr h2))
      · rw [if_neg (not_not_intro h1), if_neg h2]
        refine iff_of_false (by simp [isError]) ?_
        push_neg
        exact ⟨h1.1, h1.2, not_lt.mp h2⟩
    · rw [if_pos h1]
      refine iff_of_true rfl ?_
      rcases not_and_or.mp h1 with h | h
      · exact Or.inl (not_le.mp h)
      · exact Or.inr (Or.inl (not_le.mp h))
  · unfold ReachEstimation.make
    rw [if_pos (by norm_num)]
    rfl
  · unfold ReachEstimation.make
    rw [if_neg (by norm_num), if_pos (by norm_num)]
    rfl
  · unfold ReachEstimation.make
    rw [if_neg (by norm_num), if_neg (by norm_num)]
    rfl

/-! ### C6 -/

/-- C6: `power_density` returns 0 on a system with no power relations,
and otherwise returns the relation count divided by the number of
distinct position strings; the defensive zero-positions branch is
unreachable when the relation list is non-empty. -/
theorem power_density_spec (s : PowerSystem) :
    (s.get_power_relations = [] → s.power_density = 0)
    ∧ (s.get_power_relations ≠ [] →
        (s.get_power_relations.flatMap fun rel =>
            [rel.from_position, rel.to_position]).dedup.length ≠ 0
        ∧ s.power_density =
            (s.get_power_relations.length : ℚ) /
              ((s.get_power_relations.flatMap fun rel =>
                  [rel.from_position, rel.to_position]).dedup.length : ℚ)) := by
  constructor
  · intro h
    simp [PowerSystem.power_density, h]
  · intro h
    have hflat : (s.get_power_relations.flatMap fun rel =>
        [rel.from_position, rel.to_position]) ≠ [] := by
      rcases List.exists_mem_of_ne_nil _ h with ⟨r, hr⟩
      intro he
      exact absurd (List.flatMap_eq_nil_iff.mp he r hr) (by simp)
    have hlen : (s.get_power_relations.flatMap fun rel =>
        [rel.from_position, rel.to_position]).dedup.length ≠ 0 := by
      rw [Ne, List.length_eq_zero, List.dedup_eq_nil]
      exact hflat
    refine ⟨hlen, ?_⟩
    rw [PowerSystem.power_density]
    rw [if_neg (by simpa [List.isEmpty_iff] using h), if_neg hlen]

/-- C6 witness: two relations over two distinct positions give density
1, and a relation-free system gives density 0. -/
theorem power_density_spec_witness :
    sysRel.power_density = 1 ∧ sysEmpty.power_density = 0 := by
  constructor
  · have hne : sysRel.get_power_relations ≠ [] := by
      intro h
      exact absurd h (by simp [sysRel])
    have h := ((power_density_spec sysRel).2 hne).2
    have hd : (sysRel.get_power_relations.flatMap fun rel =>
        [rel.from_position, rel.to_position]).dedup.length = 2 := by rfl
    have hr : sysRel.get_power_relations.length = 2 := by rfl
    rw [h, hd, hr]
    norm_num
  · exact (power_density_spec sysEmpty).1 rfl

/-! ### C9 -/

/-- C9: whenever every reach estimation the system returns satisfies the
construction invariant, the analysis satisfies
`minimum_reach ≤ maximum_reach`. -/
theorem analyze_reach_bounds (s : PowerSystem)
    (h : ∀ p ∈ s.get_privileges, (s.estimate_reach p).Valid) :
    (analyze s).minimum_reach ≤ (analyze s).maximum_reach := by
  rw [analyze_minimum_reach_def, analyze_maximum_reach_def, List.map_map,
    List.map_map]
  refine List.sum_le_sum fun p hp => ?_
  exact (h p hp).2.2

/-- C9 witness: the reach bound realised on a concrete system. -/
theorem analyze_reach_bounds_witness :
    (analyze sysHi).minimum_reach ≤ (analyze sysHi).maximum_reach :=
  analyze_reach_bounds sysHi fun p _ =>
    ⟨by norm_num [sysHi, estOf], by norm_num [sysHi, estOf],
     by norm_num [sysHi, estOf]⟩

/-! ### C10 -/

/-- C10: whenever every reach estimation the system returns satisfies
the construction invariant, the analysis confidence lies in [0, 1]. -/
theorem analyze_confidence_unit (s : PowerSystem)
    (h : ∀ p ∈ s.get_privileges, (s.estimate_reach p).Valid) :
    0 ≤ (analyze s).confidence ∧ (analyze s).confidence ≤ 1 := by
  rw [analyze_confidence_eval]
  by_cases h0 : s.get_privileges.length = 0
  · simp [h0]
  · rw [if_neg h0]
    have hnpos : 0 < s.get_privileges.length := Nat.pos_of_ne_zero h0
    have hn : (0 : ℚ) < (s.get_privileges.length : ℚ) := by exact_mod_cast hnpos
    have hbase0 : (0 : ℚ) ≤
        ((s.get_privileges.countP fun p => p.is_measurable : Nat) : ℚ) /
          (s.get_privileges.length : ℚ) :=
      div_nonneg (by positivity) hn.le
    have hbase1 :
        ((s.get_privileges.countP fun p => p.is_measurable : Nat) : ℚ) /
          (s.get_privileges.length : ℚ) ≤ 1 := by
      rw [div_le_one hn]
      exact_mod_cast List.countP_le_length _
    have hsum0 : (0 : ℚ) ≤
        (s.get_privileges.map fun p => (s.estimate_reach p).confidence).sum := by
      refine List.sum_nonneg fun x hx => ?_
      rcases List.mem_map.mp hx with ⟨p, hp, rfl⟩
      exact (h p hp).1
    have hsum1 :
        (s.get_privileges.map fun p => (s.estimate_reach p).confidence).sum ≤
          (s.get_privileges.length : ℚ) := by
      have := List.sum_le_card_nsmul
        (s.get_privileges.map fun p => (s.estimate_reach p).confidence) 1
        (fun x hx => by
          rcases List.mem_map.mp hx with ⟨p, hp, rfl⟩
          exact (h p hp).2.1)
      simpa [List.length_map, nsmul_eq_mul] using this
    have havg0 : (0 : ℚ) ≤
        (s.get_privileges.map fun p => (s.estimate_reach p).confidence).sum /
          (s.get_privileges.length : ℚ) := div_nonneg hsum0 hn.le
    have havg1 :
        (s.get_privileges.map fun p => (s.estimate_reach p).confidence).sum /
          (s.get_privileges.length : ℚ) ≤ 1 := by
      rw [div_le_one hn]
      exact hsum1
    constructor
    · linarith
    · linarith

/-- C10 witness: the confidence bound realised on a concrete system. -/
theorem analyze_confidence_unit_witness :
    0 ≤ (analyze sysMid).confidence ∧ (analyze sysMid).confidence ≤ 1 :=
  analyze_confidence_unit sysMid fun p _ =>
    ⟨by norm_num [sysMid, estOf], by norm_num [sysMid, estOf],
     by norm_num [sysMid, estOf]⟩

/-! ### C7 -/

theorem sys5_reach_confidences :
    (sys5.get_privileges.map fun p => (sys5.estimate_reach p).confidence) =
      [0.9, 0.9, 0.9, 0.5, 0.5] := by
  have e1 : priv1.is_measurable = true := by rfl
  have e2 : priv2.is_measurable = true := by rfl
  have e3 : priv3.is_measurable = true := by rfl
  have e4 : priv4.is_measurable = false := by rfl
  have e5 : priv5.is_measurable = false := by rfl
  simp [sys5, estOf, e1, e2, e3, e4, e5]

theorem sys5_confidence : (analyze sys5).confidence = 0.67 := by
  have e1 : priv1.is_measurable = true := by rfl
  have e2 : priv2.is_measurable = true := by rfl
  have e3 : priv3.is_measurable = true := by rfl
  have e4 : priv4.is_measurable = false := by rfl
  have e5 : priv5.is_measurable = false := by rfl
  simp [analyze, sys5, e1, e2, e3, e4, e5]
  norm_num [estOf]

/-- C7 counterexample: the scenario system matches the claim's inputs —
five privileges, three measurable, reach confidences
[0.9, 0.9, 0.9, 0.5, 0.5] in order — yet its analysis confidence is not
0.65 (the mean of the reach confidences is 0.74, not 0.7). -/
theorem sys5_confidence_ne :
    sys5.get_privileges.length = 5
    ∧ (sys5.get_privileges.countP fun p => p.is_measurable) = 3
    ∧ (sys5.get_privileges.map fun p => (sys5.estimate_reach p).confidence) =
        [0.9, 0.9, 0.9, 0.5, 0.5]
    ∧ (analyze sys5).confidence ≠ 0.65 := by
  refine ⟨by rfl, by rfl, sys5_reach_confidences, ?_⟩
  rw [sys5_confidence]
  norm_num

/-- C7 (amended): for the scenario system — five privileges, three of
them measurable, reach confidences [0.9, 0.9, 0.9, 0.5, 0.5] in order —
`analyze` produces base confidence 0.6, average reach confidence 0.74,
overall confidence 0.67, the ESTIMABLE verdict and `is_measurable =
false`. -/
theorem analyze_sys5_values :
    ((sys5.get_privileges.countP fun p => p.is_measurable : Nat) : ℚ) /
        (sys5.get_privileges.length : ℚ) = 0.6
    ∧ (sys5.get_privileges.map fun p => (sys5.estimate_reach p).confidence).sum /
        (sys5.get_privileges.length : ℚ) = 0.74
    ∧ (analyze sys5).confidence = 0.67
    ∧ (analyze sys5).verdict = "~ ESTIMABLE"
    ∧ (analyze sys5).is_measurable = false
    ∧ (analyze sys5).measurable_privileges = 3
    ∧ (analyze sys5).total_privileges = 5 := by
  have hc : (List.countP (fun p => p.is_measurable)
      [priv1, priv2, priv3, priv4, priv5]) = 3 := by rfl
  refine ⟨?_, ?_, sys5_confidence, ?_, ?_, by rfl, by rfl⟩
  · show ((List.countP (fun p => p.is_measurable)
      [priv1, priv2, priv3, priv4, priv5] : Nat) : ℚ) / _ = _
    rw [hc]
    norm_num [sys5]
  · rw [sys5_reach_confidences]
    norm_num [sys5]
  · rw [analyze_verdict_def, sys5_confidence, if_neg (by norm_num),
      if_pos (by norm_num)]
  · rw [analyze_is_measurable_def, sys5_confidence]
    simp only [decide_eq_false_iff_not]
    norm_num

/-! ### C8 -/

/-- C8: the interpretation appended by `compare` names whichever system
has strictly higher analysis confidence as the more measurable one —
the first system when its confidence is strictly higher, the second
system when its confidence is strictly higher — and states similar
measurability when the confidences are equal. -/
theorem compare_interpretation (s1 s2 : PowerSystem) :
    ((analyze s1).confidence > (analyze s2).confidence →
      compare s1 s2 = compareBody s1 s2 ++
        ("\n" ++ s1.name ++ " is MORE MEASURABLE than " ++ s2.name ++
         ".\nFoucault: More measurable systems often have more explicit disciplinary mechanisms."))
    ∧ ((analyze s2).confidence > (analyze s1).confidence →
      compare s1 s2 = compareBody s1 s2 ++
        ("\n" ++ s2.name ++ " is MORE MEASURABLE than " ++ s1.name ++
         ".\nFoucault: More measurable systems often have more explicit disciplinary mechanisms."))
    ∧ ((analyze s1).confidence = (analyze s2).confidence →
      compare s1 s2 = compareBody s1 s2 ++
        ("\nBoth systems show similar measurability." ++
         "\nFoucault: Different power regimes can have equivalent measurability.")) := by
  refine ⟨fun h => ?_, fun h => ?_, fun h => ?_⟩
  · simp only [compare]
    rw [if_pos h]
  · simp only [compare]
    rw [if_neg (lt_asymm h), if_pos h]
  · simp only [compare]
    rw [if_neg (by rw [h]; exact lt_irrefl _), if_neg (by rw [h]; exact lt_irrefl _)]

/-- C8 witness: when the first system's confidence is strictly higher
(0.85 vs 0) the output names the first system; with the arguments
swapped (0 vs 0.85) it names the second system; and a tied pair states
similarity. -/
theorem compare_interpretation_witness :
    compare sysHi sysEmpty = compareBody sysHi sysEmpty ++
      ("\n" ++ sysHi.name ++ " is MORE MEASURABLE than " ++ sysEmpty.name ++
       ".\nFoucault: More measurable systems often have more explicit disciplinary mechanisms.")
    ∧ compare sysEmpty sysHi = compareBody sysEmpty sysHi ++
      ("\n" ++ sysHi.name ++ " is MORE MEASURABLE than " ++ sysEmpty.name ++
       ".\nFoucault: More measurable systems often have more explicit disciplinary mechanisms.")
    ∧ compare sysEmpty sysEmpty = compareBody sysEmpty sysEmpty ++
      ("\nBoth systems show similar measurability." ++
       "\nFoucault: Different power regimes can have equivalent measurability.") :=
  ⟨(compare_interpretation sysHi sysEmpty).1
      (by rw [sysHi_confidence, sysEmpty_confidence]; norm_num),
   (compare_interpretation sysEmpty sysHi).2.1
      (by rw [sysHi_confidence, sysEmpty_confidence]; norm_num),
   (compare_interpretation sysEmpty sysEmpty).2.2 rfl⟩

/-! ### C4 : keyword matching against the Python list representation -/

theorem leadsWith_iff (n h : List Char) :
    leadsWith n h = true ↔ ∃ v, h = n ++ v := by
  induction n generalizing h with
  | nil => simp [leadsWith]
  | cons a as ih =>
    cases h with
    | nil =>
      simp [leadsWith]
    | cons b bs =>
      rw [leadsWith, Bool.and_eq_true, beq_iff_eq, ih]
      constructor
      · rintro ⟨rfl, v, rfl⟩
        exact ⟨v, rfl⟩
      · rintro ⟨v, hv⟩
        rw [List.cons_append] at hv
        cases hv
        exact ⟨rfl, v, rfl⟩

theorem subtext_iff (n h : List Char) :
    subtext n h = true ↔ ∃ u v, h = u ++ n ++ v := by
  induction h with
  | nil =>
    rw [subtext, Bool.or_eq_true, leadsWith_iff]
    constructor
    · rintro (⟨v, hv⟩ | h)
      · exact ⟨[], v, by simpa using hv⟩
      · cases h
    · rintro ⟨u, v, huv⟩
      refine Or.inl ⟨v, ?_⟩
      rcases List.append_eq_nil.mp huv.symm with ⟨h1, h2⟩
      rcases List.append_eq_nil.mp h1 with ⟨h3, h4⟩
      rw [h2, h4]
      rfl
  | cons b bs ih =>
    rw [subtext, Bool.or_eq_true, leadsWith_iff, ih]
    constructor
    · rintro (⟨v, hv⟩ | ⟨u, v, hv⟩)
      · exact ⟨[], v, by simpa using hv⟩
      · exact ⟨b :: u, v, by rw [hv]; rfl⟩
    · rintro ⟨u, v, huv⟩
      cases u with
      | nil =>
        exact Or.inl ⟨v, by simpa using huv⟩
      | cons x xs =>
        rw [List.cons_append, List.cons_append] at huv
        cases huv
        exact Or.inr ⟨xs, v, rfl⟩

/-- If `n` occurs inside `A ++ B`, it occurs inside `A`, inside `B`, or
straddles the boundary with a nonempty suffix of `A` and a nonempty
prefix of `B`. -/
theorem occurs_append_cases (n A B : List Char)
    (h : ∃ u v, A ++ B = u ++ n ++ v) :
    (∃ u v, A = u ++ n ++ v) ∨ (∃ u v, B = u ++ n ++ v) ∨
      (∃ n₁ n₂ u v, n = n₁ ++ n₂ ∧ n₁ ≠ [] ∧ n₂ ≠ [] ∧
        A = u ++ n₁ ∧ B = n₂ ++ v) := by
  rcases h with ⟨u, v, huv⟩
  rw [List.append_assoc] at huv
  rcases List.append_eq_append_iff.mp huv with ⟨a, _, hb⟩ | ⟨c', hA, h2⟩
  · exact Or.inr (Or.inl ⟨a, v, by rw [hb, List.append_assoc]⟩)
  · rcases List.append_eq_append_iff.mp h2 with ⟨a', hc', _⟩ | ⟨w, hn, hB⟩
    · refine Or.inl ⟨u, a', ?_⟩
      rw [hA, hc', List.append_assoc]
    · cases hc : c' with
      | nil =>
        subst hc
        simp only [List.nil_append] at hn
        exact Or.inr (Or.inl ⟨[], v, by rw [hB, hn, List.nil_append]⟩)
      | cons x xs =>
        cases hw : w with
        | nil =>
          subst hw
          rw [List.append_nil] at hn
          refine Or.inl ⟨u, [], ?_⟩
          rw [hA, hn, List.append_nil]
        | cons y ys =>
          exact Or.inr (Or.inr ⟨c', w, u, v,
            hn, by rw [hc]; exact List.cons_ne_nil x xs,
            by rw [hw]; exact List.cons_ne_nil y ys, hA, hB⟩)

/-- No nonempty word occurs inside the empty character list. -/
theorem occurs_nil (n : List Char) (hn : n ≠ [])
    (h : ∃ u v, ([] : List Char) = u ++ n ++ v) : False := by
  rcases h with ⟨u, v, huv⟩
  rcases List.append_eq_nil.mp huv.symm with ⟨h1, _⟩
  exact hn (List.append_eq_nil.mp h1).2

/-- Prepending a non-letter character neither creates nor destroys an
occurrence of an all-letter word. -/
theorem occurs_cons_notkw (c : Char) (hc : ¬ kwChar c) (n B : List Char)
    (hn : n ≠ []) (hk : ∀ x ∈ n, kwChar x) :
    (∃ u v, c :: B = u ++ n ++ v) ↔ (∃ u v, B = u ++ n ++ v) := by
  constructor
  · intro h
    have h' : ∃ u v, [c] ++ B = u ++ n ++ v := by simpa using h
    rcases occurs_append_cases n [c] B h' with hin | hin | hin
    · exfalso
      rcases hin with ⟨u, v, huv⟩
      rcases List.exists_mem_of_ne_nil n hn with ⟨x, hx⟩
      have hxc : x ∈ [c] := by rw [huv]; simp [hx]
      cases List.mem_singleton.mp hxc
      exact hc (hk _ hx)
    · exact hin
    · exfalso
      rcases hin with ⟨n₁, n₂, u, v, hsplit, hn1, _, hA, _⟩
      rcases List.exists_mem_of_ne_nil n₁ hn1 with ⟨x, hx⟩
      have hxc : x ∈ [c] := by rw [hA]; simp [hx]
      have hxn : x ∈ n := by rw [hsplit]; simp [hx]
      cases List.mem_singleton.mp hxc
      exact hc (hk _ hxn)
  · rintro ⟨u, v, huv⟩
    exact ⟨c :: u, v, by rw [huv]; rfl⟩

/-- An all-letter word occurring in `e ++ B`, where `B` starts with a
non-letter character (or is empty), occurs in `e` or in `B`. -/
theorem occurs_elem_append (n e B : List Char) (_hn : n ≠ [])
    (hk : ∀ x ∈ n, kwChar x) (hB : ∀ c t, B = c :: t → ¬ kwChar c) :
    (∃ u v, e ++ B = u ++ n ++ v) ↔
      (∃ u v, e = u ++ n ++ v) ∨ (∃ u v, B = u ++ n ++ v) := by
  constructor
  · intro h
    rcases occurs_append_cases n e B h with hin | hin | hin
    · exact Or.inl hin
    · exact Or.inr hin
    · exfalso
      rcases hin with ⟨n₁, n₂, u, v, hsplit, _, hn2, _, hB2⟩
      cases n₂ with
      | nil => exact hn2 rfl
      | cons c t =>
        have hkc : kwChar c := hk c (by rw [hsplit]; simp)
        exact hB c (t ++ v) (by rw [hB2]; rfl) hkc
  · rintro (⟨u, v, huv⟩ | ⟨u, v, huv⟩)
    · exact ⟨u, v ++ B, by rw [huv]; simp [List.append_assoc]⟩
    · exact ⟨e ++ u, v, by rw [huv]; simp [List.append_assoc]⟩

/-- An all-letter word occurs in the bracketed, quoted, comma-joined
rendering of a list of character lists exactly when it occurs in one of
the elements. -/
theorem occurs_join_iff (n : List Char) (hn : n ≠ [])
    (hk : ∀ x ∈ n, kwChar x) :
    ∀ xs : List (List Char),
      ((∃ u v, joinSep (xs.map fun e => '\'' :: e ++ ['\'']) ++ [']'] =
          u ++ n ++ v) ↔
        ∃ e ∈ xs, ∃ u v, e = u ++ n ++ v) := by
  intro xs
  induction xs with
  | nil =>
    refine iff_of_false ?_ (by simp)
    intro h
    rw [show joinSep ([].map fun e => '\'' :: e ++ ['\'']) ++ [']'] =
        ']' :: [] from rfl] at h
    exact occurs_nil n hn
      ((occurs_cons_notkw ']' (by decide) n [] hn hk).mp h)
  | cons e t ih =>
    cases t with
    | nil =>
      have heq : joinSep ([e].map fun x => '\'' :: x ++ ['\'']) ++ [']'] =
          '\'' :: (e ++ ('\'' :: ']' :: [])) := by
        simp [joinSep]
      rw [heq, occurs_cons_notkw '\'' (by decide) n _ hn hk,
        occurs_elem_append n e ('\'' :: ']' :: []) hn hk
          (by rintro c t h; cases h; decide)]
      constructor
      · rintro (h | h)
        · exact ⟨e, by simp, h⟩
        · exfalso
          rw [occurs_cons_notkw '\'' (by decide) n _ hn hk,
            occurs_cons_notkw ']' (by decide) n _ hn hk] at h
          exact occurs_nil n hn h
      · rintro ⟨e', he', h⟩
        rcases List.mem_singleton.mp he'
        exact Or.inl h
    | cons y t' =>
      have heq : joinSep ((e :: y :: t').map fun x => '\'' :: x ++ ['\'']) ++
          [']'] =
          '\'' :: (e ++ ('\'' :: ',' :: ' ' ::
            (joinSep ((y :: t').map fun x => '\'' :: x ++ ['\'']) ++ [']']))) := by
        show (('\'' :: (e ++ ['\''])) ++ [',', ' '] ++ _) ++ [']'] = _
        simp
      rw [heq, occurs_cons_notkw '\'' (by decide) n _ hn hk,
        occurs_elem_append n e _ hn hk (by rintro c t h; cases h; decide),
        occurs_cons_notkw '\'' (by decide) n _ hn hk,
        occurs_cons_notkw ',' (by decide) n _ hn hk,
        occurs_cons_notkw ' ' (by decide) n _ hn hk, ih]
      constructor
      · rintro (h | ⟨e', he', h⟩)
        · exact ⟨e, List.mem_cons_self e _, h⟩
        · exact ⟨e', List.mem_cons_of_mem _ he', h⟩
      · rintro ⟨e', he', h⟩
        rcases List.mem_cons.mp he' with rfl | he'
        · exact Or.inl h
        · exact Or.inr ⟨e', he', h⟩

/-- A plain printable character is kept verbatim by the `repr` escape. -/
theorem pyEscape_plain (c : Char) (h : asciiPlain c) :
    pyEscape '\'' c = [c] := by
  obtain ⟨h1, h2, h3, h4, _⟩ := h
  rw [pyEscape, if_neg h3, if_neg h4,
    if_neg (by intro he; rw [he] at h1; exact absurd h1 (by decide)),
    if_neg (by intro he; rw [he] at h1; exact absurd h1 (by decide)),
    if_neg (by intro he; rw [he] at h1; exact absurd h1 (by decide)),
    if_neg ?_]
  simp only [Bool.or_eq_true, decide_eq_true_eq, beq_iff_eq]
  omega

theorem flatMap_singleton_id (l : List Char) (f : Char → List Char)
    (h : ∀ c ∈ l, f c = [c]) : l.flatMap f = l := by
  induction l with
  | nil => rfl
  | cons c t ih =>
    rw [List.flatMap_cons, h c (by simp), ih fun x hx => h x (by simp [hx])]
    rfl

/-- On strings of plain characters, CPython `repr` just wraps the text
in single quotes. -/
theorem pyReprChars_plain (s : List Char) (h : ∀ c ∈ s, asciiPlain c) :
    pyReprChars s = '\'' :: s ++ ['\''] := by
  have hq : s.contains '\'' = false := by
    rw [Bool.eq_false_iff]
    intro hc
    rcases List.contains_iff_exists_mem_beq.mp hc with ⟨x, hx, hbeq⟩
    exact absurd (beq_iff_eq.mp hbeq).symm (h x hx).2.2.2.1
  rw [pyReprChars]
  simp only [hq, Bool.false_and]
  rw [if_neg (by simp)]
  rw [flatMap_singleton_id s _ fun c hc => pyEscape_plain c (h c hc)]

theorem lowerChars_append (a b : List Char) :
    lowerChars (a ++ b) = lowerChars a ++ lowerChars b :=
  List.map_append _ a b

theorem lowerChars_joinSep (l : List (List Char)) :
    lowerChars (joinSep l) = joinSep (l.map lowerChars) := by
  induction l with
  | nil => rfl
  | cons x t ih =>
    cases t with
    | nil => rfl
    | cons y t' =>
      rw [joinSep, lowerChars_append, lowerChars_append, ih]
      rfl

/-- On lists of plain strings, the lowercased Python rendering of the
list is the bracketed, quoted, comma-joined lowercasing of the
elements. -/
theorem pyStr_plain (xs : List String)
    (h : ∀ s ∈ xs, ∀ c ∈ s.toList, asciiPlain c) :
    lowerChars (pyStrOfList xs) =
      '[' :: joinSep ((xs.map fun s => lowerChars s.toList).map
        fun e => '\'' :: e ++ ['\'']) ++ [']'] := by
  rw [pyStrOfList]
  show lowerChars ('[' :: (joinSep (xs.map fun s => pyReprChars s.toList) ++ [']'])) = _
  rw [show lowerChars ('[' :: (joinSep (xs.map fun s => pyReprChars s.toList) ++ [']'])) =
      '[' :: (lowerChars (joinSep (xs.map fun s => pyReprChars s.toList)) ++ [']'])
    from by rw [lowerChars, List.map_cons, List.map_append]; rfl]
  rw [lowerChars_joinSep, List.map_map, List.map_map]
  congr 2
  refine congrArg joinSep (List.map_congr_left fun s hs => ?_)
  show lowerChars (pyReprChars s.toList) = '\'' :: lowerChars s.toList ++ ['\'']
  rw [pyReprChars_plain s.toList (h s hs)]
  rw [show ('\'' :: s.toList ++ ['\''] : List Char) =
      '\'' :: (s.toList ++ ['\'']) from rfl]
  rw [lowerChars, List.map_cons, List.map_append]
  rfl

/-- C4 counterexample: the privilege whose single limitation is a
carriage return followed by "ate" is classified measurable by the code
(the `\r` escape in `str(list)` spells out "rate"), although no element
of its limitations contains any keyword case-insensitively. -/
theorem privEscape_not_per_element :
    privEscape.is_measurable = true
    ∧ (privEscape.limitations.all fun s =>
        measurabilityKeywords.all fun kw =>
          !(subtext kw (lowerChars s.toList))) = true := by
  constructor
  · rfl
  · rfl

/-- C4 (amended): for privileges whose limitation strings consist of
plain printable ASCII (no backslash, quotes, or control characters),
`is_measurable` is true exactly when some limitation string contains
some keyword case-insensitively; on strings with characters that `repr`
escapes the code instead scans `str(limitations)`, which can differ. -/
theorem privilege_is_measurable_plain_iff (p : Privilege)
    (hplain : ∀ s ∈ p.limitations, ∀ c ∈ s.toList, asciiPlain c) :
    p.is_measurable = true ↔
      ∃ s ∈ p.limitations, ∃ kw ∈ measurabilityKeywords,
        subtext kw (lowerChars s.toList) = true := by
  have hkw : ∀ kw ∈ measurabilityKeywords, kw ≠ [] ∧ ∀ x ∈ kw, kwChar x := by
    decide
  rw [Privilege.is_measurable, Bool.and_eq_true, decide_eq_true_eq,
    List.any_eq_true]
  simp only [pyStr_plain p.limitations hplain]
  constructor
  · rintro ⟨_, kw, hkwmem, hsub⟩
    obtain ⟨hne, hkchars⟩ := hkw kw hkwmem
    rw [subtext_iff] at hsub
    have h1 := (occurs_cons_notkw '[' (by decide) kw _ hne hkchars).mp hsub
    rcases (occurs_join_iff kw hne hkchars _).mp h1 with ⟨e, hemem, u, v, heq⟩
    rcases List.mem_map.mp hemem with ⟨s, hs, rfl⟩
    exact ⟨s, hs, kw, hkwmem, (subtext_iff _ _).mpr ⟨u, v, heq⟩⟩
  · rintro ⟨s, hs, kw, hkwmem, hsub⟩
    obtain ⟨hne, hkchars⟩ := hkw kw hkwmem
    refine ⟨List.length_pos.mpr (List.ne_nil_of_mem hs), kw, hkwmem, ?_⟩
    rw [subtext_iff]
    apply (occurs_cons_notkw '[' (by decide) kw _ hne hkchars).mpr
    apply (occurs_join_iff kw hne hkchars _).mpr
    exact ⟨lowerChars s.toList, List.mem_map_of_mem _ hs,
      (subtext_iff _ _).mp hsub⟩

/-- C4 witness: the spec's own example — a limitation reading
"Retention: unlimited duration" is plain ASCII and contains "limit"
inside "unlimited", so the privilege is measurable. -/
theorem privilege_is_measurable_plain_iff_witness :
    privRetention.is_measurable = true :=
  (privilege_is_measurable_plain_iff privRetention (by decide)).mpr
    ⟨"Retention: unlimited duration", by decide, "limit".toList, by decide,
      by rfl⟩

end PowerSystems
